import Mathlib

/-!
Verification of the NLQ-to-SQL query-resolution orchestrator
(app/sql_guardrails.py, app/agent.py, app/retrieval.py).

Shallow embedding conventions:
* Text is a `List Nat` of Unicode code points; `strN` converts a literal.
  Character classes (whitespace, word characters, case mapping) are modelled
  on the ASCII range, which is where the Python code's regexes and the SQL
  dialect live.
* Python floats (retrieval scores, thresholds) are modelled as exact
  rationals (`Rat`).
* Fallible collaborators (the SQLite store, the LLM) are explicit parameters;
  a Python exception from the store is an `Except.error` value.
* Python set iteration order (over `BLOCKED_KEYWORDS` and the extracted table
  set) is not specified by the language; the embedding fixes the literal's
  textual order, which only affects which of several offending names an error
  message cites.
-/

namespace NLQ

/-- Code points of a string literal. -/
def strN (s : String) : List Nat := s.data.map Char.toNat

/-- ASCII lower-casing of one code point (Python `str.lower` on ASCII). -/
def lc (n : Nat) : Nat := if 65 ≤ n ∧ n ≤ 90 then n + 32 else n

/-- ASCII upper-casing of one code point (Python `str.upper` on ASCII). -/
def uc (n : Nat) : Nat := if 97 ≤ n ∧ n ≤ 122 then n - 32 else n

def lower (l : List Nat) : List Nat := l.map lc

def upper (l : List Nat) : List Nat := l.map uc

/-- Python `str` whitespace on the ASCII range: space, \t, \n, \v, \f, \r.
The same set models the `\s` class of the `re` module. -/
def isPySpace (n : Nat) : Bool := n == 32 || (decide (9 ≤ n) && decide (n ≤ 13))

/-- Python `str.lstrip()`. -/
def lstrip (l : List Nat) : List Nat := l.dropWhile isPySpace

/-- Python `str.rstrip()`. -/
def rstrip (l : List Nat) : List Nat := (l.reverse.dropWhile isPySpace).reverse

/-- Python `str.strip()`. -/
def pyStrip (l : List Nat) : List Nat := rstrip (lstrip l)

/-- Boolean prefix test. -/
def isPrefB : List Nat → List Nat → Bool
  | [], _ => true
  | _ :: _, [] => false
  | a :: as, b :: bs => a == b && isPrefB as bs

/-- Boolean substring test: Python `needle in hay`. -/
def containsB (needle : List Nat) : List Nat → Bool
  | [] => needle.isEmpty
  | b :: t => isPrefB needle (b :: t) || containsB needle t

/-! ## app/sql_guardrails.py -/

/-- `BLOCKED_KEYWORDS` of sql_guardrails.py (a Python set literal; the
embedding keeps the textual order). -/
def BLOCKED_KEYWORDS : List (List Nat) :=
  [strN "insert", strN "update", strN "delete", strN "drop", strN "alter",
   strN "create", strN "truncate", strN "grant", strN "revoke", strN "execute",
   strN "exec", strN "xp_", strN "sp_", strN ";--", strN "/*", strN "*/"]

/-- `ALLOWED_TABLES` of sql_guardrails.py. -/
def ALLOWED_TABLES : List (List Nat) :=
  [strN "cpfb_state_delinquency_30_89", strN "cpfb_state_delinquency_90_plus",
   strN "cpfb_metro_delinquency_30_89", strN "cpfb_metro_delinquency_90_plus",
   strN "fred_mortgage_rates", strN "fhfa_hpi_state"]

/-- The `\w` / `[a-zA-Z0-9_]` class of the table-name regexes (ASCII). -/
def isWordChar (n : Nat) : Bool :=
  (decide (65 ≤ n) && decide (n ≤ 90)) || (decide (97 ≤ n) && decide (n ≤ 122)) ||
  (decide (48 ≤ n) && decide (n ≤ 57)) || n == 95

/-- The part of the regex `\bFROM\s+(?:[\w]+\.)?([a-zA-Z0-9_]+)` after the
keyword: one or more whitespace, an optional `schema.` qualifier, then the
captured table name. Returns the capture and the unconsumed rest. When a
qualifier run is followed by a dot but no word character (so the optional
group cannot complete), the regex backtracks and captures the first run. -/
def matchTail (l : List Nat) : Option (List Nat × List Nat) :=
  let sp := l.takeWhile isPySpace
  if sp.isEmpty then none else
  let r1 := l.dropWhile isPySpace
  let w1 := r1.takeWhile isWordChar
  if w1.isEmpty then none else
  let r2 := r1.dropWhile isWordChar
  match r2 with
  | 46 :: r3 =>
    let w2 := r3.takeWhile isWordChar
    if w2.isEmpty then some (w1, r2) else some (w2, r3.dropWhile isWordChar)
  | _ => some (w1, r2)

/-- `re.findall` scan for `\bKW\s+(?:[\w]+\.)?([a-zA-Z0-9_]+)` with
`re.IGNORECASE`: left-to-right, non-overlapping; `prevWord` tracks whether the
previous character was a word character (for the `\b` boundary). `kw` is given
lower-case. The fuel starts at the list length and each step consumes at least
one character, so it never runs out before the text does. -/
def scanTablesAux (kw : List Nat) : Nat → Bool → List Nat → List (List Nat)
  | 0, _, _ => []
  | _ + 1, _, [] => []
  | fuel + 1, prevWord, c :: rest =>
    if !prevWord && isPrefB kw (lower (c :: rest)) then
      match matchTail ((c :: rest).drop kw.length) with
      | some (cap, r) => cap :: scanTablesAux kw fuel true r
      | none => scanTablesAux kw fuel (isWordChar c) rest
    else scanTablesAux kw fuel (isWordChar c) rest

def findTables (kw sql : List Nat) : List (List Nat) :=
  scanTablesAux kw sql.length false sql

/-- The table names validate_sql's two `re.findall` calls extract
(`from_match + join_match`; Python then wraps them in a set, which only
changes order and multiplicity, neither of which the validation verdict
depends on). -/
def extractTables (sql : List Nat) : List (List Nat) :=
  findTables (strN "from") sql ++ findTables (strN "join") sql

/-- One iteration of the blocked-keyword loop:
`kw.upper() in s or kw.lower() in sql.lower()` with `s = sql.strip().upper()`. -/
def kwHit (sql kw : List Nat) : Bool :=
  containsB (upper kw) (upper (pyStrip sql)) || containsB (lower kw) (lower sql)

/-- The first blocked keyword the loop trips on, if any. -/
def firstBlocked (sql : List Nat) : List (List Nat) → Option (List Nat)
  | [] => none
  | kw :: rest => if kwHit sql kw then some kw else firstBlocked sql rest

/-- `t.lower() not in {x.lower() for x in tables}`, negated. -/
def lowerMem (t : List Nat) (tables : List (List Nat)) : Bool :=
  (tables.map lower).contains (lower t)

/-- The first extracted table name outside the allow-list, if any. -/
def firstBadTable (tables : List (List Nat)) : List (List Nat) → Option (List Nat)
  | [] => none
  | t :: rest => if !lowerMem t tables then some t else firstBadTable tables rest

/-- `validate_sql(sql, allowed_tables)` of sql_guardrails.py. Returns
`(is_valid, error_message)`. `tables = allowed_tables or ALLOWED_TABLES`:
a missing or empty argument falls back to the default allow-list. The
trailing `LIMIT` stanza of the source is a `pass` (a no-op). -/
def validate_sql_with (allowed : Option (List (List Nat))) (sql : List Nat) :
    Bool × List Nat :=
  if pyStrip sql = [] then (false, strN "Empty SQL")
  else match firstBlocked sql BLOCKED_KEYWORDS with
  | some kw => (false, strN "Blocked keyword: " ++ kw)
  | none =>
    let tables := match allowed with
      | some ts => if ts.isEmpty then ALLOWED_TABLES else ts
      | none => ALLOWED_TABLES
    match firstBadTable tables (extractTables sql) with
    | some t => (false, strN "Table not allowed: " ++ t)
    | none => (true, [])

/-- `validate_sql` at its default allow-list, as the agent calls it. -/
def validate_sql (sql : List Nat) : Bool × List Nat := validate_sql_with none sql

/-- `add_limit_if_missing(sql, default_limit)` of sql_guardrails.py. -/
def add_limit_with (default_limit : Nat) (sql : List Nat) : List Nat :=
  let s := pyStrip sql
  if containsB (strN "LIMIT") (upper s) then s
  else
    let s2 := if (rstrip s).getLast? = some 59 then (rstrip s).dropLast else s
    s2 ++ strN " LIMIT " ++ strN (toString default_limit)

/-- `add_limit_if_missing` at its default limit of 1000, as the agent calls it. -/
def add_limit_if_missing (sql : List Nat) : List Nat := add_limit_with 1000 sql

/-! ## app/agent.py: `_extract_sql_from_response`

The LLM response parser. Its first strategy locates a brace-delimited span
with no inner braces (the regex is over `[^{}]*`) containing a quoted sql
key and feeds it to `json.loads`; since the span holds no brace, the decoded
value can be an object of strings, numbers, constants and (nested) arrays,
but never a nested object. `J` models such JSON values, which double as the
Python objects the decoder produces (`J.null` is Python `None`). -/

inductive J where
  | null : J
  | bool (b : Bool) : J
  | num (q : Rat) : J
  | str (s : List Nat) : J
  | arr (xs : List J) : J
  | nan : J
  | inf : J
  | ninf : J

/-- Python truthiness of a decoded JSON value (`if v:`). -/
def truthy : J → Bool
  | .null => false
  | .bool b => b
  | .num q => !(q == 0)
  | .str s => !s.isEmpty
  | .arr xs => !xs.isEmpty
  | .nan => true
  | .inf => true
  | .ninf => true

/-- JSON whitespace accepted by Python `json.loads`: space, \t, \n, \r. -/
def isJsonWs (n : Nat) : Bool := n == 32 || n == 9 || n == 10 || n == 13

def skipWs (l : List Nat) : List Nat := l.dropWhile isJsonWs

def isDigit (n : Nat) : Bool := decide (48 ≤ n) && decide (n ≤ 57)

def hexVal (n : Nat) : Option Nat :=
  if 48 ≤ n ∧ n ≤ 57 then some (n - 48)
  else if 97 ≤ n ∧ n ≤ 102 then some (n - 87)
  else if 65 ≤ n ∧ n ≤ 70 then some (n - 55)
  else none

/-- Four hex digits of a `\uXXXX` escape. -/
def hex4 : List Nat → Option (Nat × List Nat)
  | a :: b :: c :: d :: r => do
    let x ← hexVal a
    let y ← hexVal b
    let z ← hexVal c
    let w ← hexVal d
    pure (((x * 16 + y) * 16 + z) * 16 + w, r)
  | _ => none

/-- The single-character string escapes of JSON. -/
def escChar (e : Nat) : Option Nat :=
  if e == 34 then some 34
  else if e == 92 then some 92
  else if e == 47 then some 47
  else if e == 98 then some 8
  else if e == 102 then some 12
  else if e == 110 then some 10
  else if e == 114 then some 13
  else if e == 116 then some 9
  else none

/-- JSON string body after the opening quote, strict mode as `json.loads`
uses it: unescaped control characters are an error, `\uXXXX` escapes are
decoded with surrogate-pair combination as Python's scanner performs it.
Returns the decoded content and the rest after the closing quote. -/
def parseStrAux : Nat → List Nat → Option (List Nat × List Nat)
  | 0, _ => none
  | _ + 1, [] => none
  | fuel + 1, c :: rest =>
    if c == 34 then some ([], rest)
    else if c == 92 then
      match rest with
      | 117 :: r =>
        match hex4 r with
        | none => none
        | some (h, r2) =>
          if 55296 ≤ h ∧ h ≤ 56319 then
            match r2 with
            | 92 :: 117 :: r3 =>
              match hex4 r3 with
              | some (lo, r4) =>
                if 56320 ≤ lo ∧ lo ≤ 57343 then
                  (fun p => ((65536 + (h - 55296) * 1024 + (lo - 56320)) :: p.1, p.2)) <$>
                    parseStrAux fuel r4
                else (fun p => (h :: p.1, p.2)) <$> parseStrAux fuel r2
              | none => (fun p => (h :: p.1, p.2)) <$> parseStrAux fuel r2
            | _ => (fun p => (h :: p.1, p.2)) <$> parseStrAux fuel r2
          else (fun p => (h :: p.1, p.2)) <$> parseStrAux fuel r2
      | e :: r =>
        match escChar e with
        | some ch => (fun p => (ch :: p.1, p.2)) <$> parseStrAux fuel r
        | none => none
      | [] => none
    else if decide (c < 32) then none
    else (fun p => (c :: p.1, p.2)) <$> parseStrAux fuel rest

def parseStr (l : List Nat) : Option (List Nat × List Nat) :=
  parseStrAux l.length l

def digitsToNat (ds : List Nat) : Nat := ds.foldl (fun a d => a * 10 + (d - 48)) 0

/-- A JSON number token, per the decoder's number regex
`-?(0|[1-9]\d*)(\.\d+)?([eE][-+]?\d+)?`: a lone dot or a dangling exponent is
left unconsumed (so the surrounding structural parse fails on it, as Python
does). Values are exact rationals in place of Python's int/float. -/
def parseNum (l : List Nat) : Option (Rat × List Nat) :=
  let sn : Bool × List Nat := match l with
    | 45 :: r => (true, r)
    | _ => (false, l)
  let ip : Option (Nat × List Nat) := match sn.2 with
    | 48 :: r => some (0, r)
    | c :: _ =>
      if isDigit c then some (digitsToNat (sn.2.takeWhile isDigit), sn.2.dropWhile isDigit)
      else none
    | [] => none
  match ip with
  | none => none
  | some (n, l2) =>
    let fr : Rat × List Nat := match l2 with
      | 46 :: r =>
        let ds := r.takeWhile isDigit
        if ds.isEmpty then (0, l2)
        else ((digitsToNat ds : Rat) / ((10 : Rat) ^ ds.length), r.dropWhile isDigit)
      | _ => (0, l2)
    let ex : Int × List Nat := match fr.2 with
      | e :: r =>
        if e == 101 || e == 69 then
          let sr : Int × List Nat := match r with
            | 43 :: r2 => (1, r2)
            | 45 :: r2 => (-1, r2)
            | _ => (1, r)
          let ds := sr.2.takeWhile isDigit
          if ds.isEmpty then (0, fr.2)
          else (sr.1 * (digitsToNat ds : Int), sr.2.dropWhile isDigit)
        else (0, fr.2)
      | [] => (0, fr.2)
    let mag : Rat := ((n : Rat) + fr.1) * (10 : Rat) ^ ex.1
    some (if sn.1 then -mag else mag, ex.2)

/-- A JSON value of the brace-free fragment: string, array, constant or
number. A `{` cannot occur inside the fragment the regex matched, so objects
need no case. Array tails are parsed by re-entering the value parser on a
synthetic `[` ++ rest, which accepts exactly the comma-separated remainder;
a `]` right after a comma is rejected first, as the decoder does. The fuel
starts at the input length and each nested call works on a strictly shorter
text, so it never runs out. -/
def parseValue : Nat → List Nat → Option (J × List Nat)
  | 0, _ => none
  | fuel + 1, l =>
    match l with
    | [] => none
    | c :: rest =>
      if c == 34 then (fun p => (J.str p.1, p.2)) <$> parseStr rest
      else if c == 91 then
        let l1 := skipWs rest
        match l1 with
        | 93 :: r => some (J.arr [], r)
        | _ =>
          match parseValue fuel l1 with
          | none => none
          | some (v, r) =>
            match skipWs r with
            | 93 :: r2 => some (J.arr [v], r2)
            | 44 :: r2 =>
              let r2s := skipWs r2
              match r2s with
              | 93 :: _ => none
              | _ =>
                match parseValue fuel (91 :: r2s) with
                | some (J.arr vs, r3) => some (J.arr (v :: vs), r3)
                | _ => none
            | _ => none
      else if isPrefB (strN "true") l then some (J.bool true, l.drop 4)
      else if isPrefB (strN "false") l then some (J.bool false, l.drop 5)
      else if isPrefB (strN "null") l then some (J.null, l.drop 4)
      else if isPrefB (strN "NaN") l then some (J.nan, l.drop 3)
      else if isPrefB (strN "Infinity") l then some (J.inf, l.drop 8)
      else if isPrefB (strN "-Infinity") l then some (J.ninf, l.drop 9)
      else (fun p => (J.num p.1, p.2)) <$> parseNum l

/-- The members of the object, after the first key's opening quote has been
seen: `"key" ws : ws value ws` then `}` or `, ws` and further members. -/
def parseMembers : Nat → List Nat → Option (List (List Nat × J) × List Nat)
  | 0, _ => none
  | fuel + 1, l =>
    match l with
    | 34 :: r => do
      let (k, r1) ← parseStr r
      match skipWs r1 with
      | 58 :: r3 =>
        let r4 := skipWs r3
        match parseValue r4.length r4 with
        | none => none
        | some (v, r5) =>
          match skipWs r5 with
          | 125 :: r7 => some ([(k, v)], r7)
          | 44 :: r7 => do
            let (ms, r9) ← parseMembers fuel (skipWs r7)
            some ((k, v) :: ms, r9)
          | _ => none
      | _ => none
    | _ => none

/-- `json.loads` on the regex-matched fragment: whitespace, an object, the
whole input consumed. Keys repeat as Python allows; lookups keep the last. -/
def loadsObj (frag : List Nat) : Option (List (List Nat × J)) :=
  match skipWs frag with
  | 123 :: r =>
    match skipWs r with
    | 125 :: r2 => if (skipWs r2).isEmpty then some [] else none
    | r1 =>
      match parseMembers r1.length r1 with
      | none => none
      | some (ms, r2) => if (skipWs r2).isEmpty then some ms else none
  | _ => none

/-- Lookup in the decoded object; a repeated key keeps its last value,
as Python's dict construction does. -/
def getKey (obj : List (List Nat × J)) (k : String) : Option J :=
  (obj.reverse.find? (fun p => decide (p.1 = strN k))).map (fun p => p.2)

/-- Python `obj.get(k)`: a missing key and a JSON `null` value are the same
Python `None`. -/
def pyGet (obj : List (List Nat × J)) (k : String) : J :=
  match getKey obj k with
  | some v => v
  | none => J.null

/-- The span the regex `\{[^{}]*"sql"[^{}]*\}` (DOTALL) finds: the leftmost
`{` whose next brace is a `}` with a quoted sql key between them. -/
def findJson : List Nat → Option (List Nat)
  | [] => none
  | c :: rest =>
    if c == 123 then
      let seg := rest.takeWhile (fun n => !(n == 123 || n == 125))
      match rest.dropWhile (fun n => !(n == 123 || n == 125)) with
      | 125 :: _ =>
        if containsB (strN "\"sql\"") seg then some (123 :: (seg ++ [125]))
        else findJson rest
      | _ => findJson rest
    else findJson rest

/-- Split `l` as `pre ++ needle ++ post` with `pre` shortest; `(pre, post)`. -/
def firstSplit (needle : List Nat) : List Nat → Option (List Nat × List Nat)
  | [] => if needle.isEmpty then some ([], []) else none
  | c :: t =>
    if isPrefB needle (c :: t) then some ([], (c :: t).drop needle.length)
    else
      match firstSplit needle t with
      | some (pre, post) => some (c :: pre, post)
      | none => none

def ticks : List Nat := strN "```"

/-- `re.search` for the fenced block `(?:sql)?\s*([\s\S]*?)` between triple
backticks: at the leftmost fence, consume an optional `sql` tag and a greedy
whitespace run (neither can hide a backtick, so no backtracking arises), and
capture up to the first closing fence; with no closing fence the search moves
on. Returns the raw capture. -/
def fenceFind : List Nat → Option (List Nat)
  | [] => none
  | c :: t =>
    if isPrefB ticks (c :: t) then
      let r1 := (c :: t).drop 3
      let r2 := if isPrefB (strN "sql") r1 then r1.drop 3 else r1
      let r3 := r2.dropWhile isPySpace
      match firstSplit ticks r3 with
      | some (cap, _) => some cap
      | none => fenceFind t
    else fenceFind t

/-- The suffix of `l` from the first case-insensitive occurrence of `needle`
(`text.upper().index(...)`; ASCII case mapping keeps indices aligned). -/
def findLowerIdx (needle : List Nat) : List Nat → Option (List Nat)
  | [] => none
  | c :: t =>
    if isPrefB needle (lower (c :: t)) then some (c :: t) else findLowerIdx needle t

/-- `text[start:].split(";")[0]`. -/
def upToSemi (l : List Nat) : List Nat := l.takeWhile (fun n => !(n == 59))

/-- The keyword metadata the structured strategy extracts:
`{k: obj[k] for k in ["assumptions", "tables_used", "explanation"] if k in obj}`.
A field is `none` when its key is absent (`some J.null` is a present null). -/
structure MetaD where
  assumptions : Option J
  tables_used : Option J
  explanation : Option J

/-- The Python 4-tuple `(sql, meta, needs_clarification, clarifying_question
or error)` that `_extract_sql_from_response` returns. `sql` and `fourth` are
Python values (`J.null` is `None`); `meta` is `None` or a dict. -/
structure ParseResult where
  sql : J
  meta : Option MetaD
  needs_clar : Bool
  fourth : J

def emptyMeta : MetaD := ⟨none, none, none⟩

def failParse : ParseResult :=
  ⟨J.null, none, false, J.str (strN "Could not extract SQL from response")⟩

/-- Strategies 2 and 3 of `_extract_sql_from_response`: the fenced code
block, then the raw scan from the first `SELECT` to the first `;`. -/
def fenceOrRaw (text : List Nat) : ParseResult :=
  match fenceFind text with
  | some cap => ⟨J.str (pyStrip cap), some emptyMeta, false, J.null⟩
  | none =>
    match findLowerIdx (strN "select") text with
    | some tail =>
      let sql := pyStrip (upToSemi tail)
      if sql.isEmpty then failParse
      else
        let sql2 := if sql.getLast? = some 59 then sql else sql ++ [59]
        ⟨J.str sql2, some emptyMeta, false, J.null⟩
    | none => failParse

/-- `_extract_sql_from_response(text)` of app/agent.py. -/
def extract_sql_from_response (text0 : List Nat) : ParseResult :=
  let text := pyStrip text0
  match findJson text with
  | some frag =>
    match loadsObj frag with
    | some obj =>
      if truthy (pyGet obj "needs_clarification") then
        ⟨J.null, none, true, pyGet obj "clarifying_question"⟩
      else
        ⟨pyGet obj "sql",
         some ⟨getKey obj "assumptions", getKey obj "tables_used", getKey obj "explanation"⟩,
         false, J.null⟩
    | none => fenceOrRaw text
  | none => fenceOrRaw text

/-! ## app/retrieval.py: the keyword strategy of `MetadataRetriever.retrieve`

The vector branch needs the chromadb/sentence-transformers collaborators; the
keyword fallback (lines 145-161) is the deterministic strategy the claims
quantify over. A dataset registry row carries `dataset_id, dataset_name,
description`; scores are exact rationals in place of Python floats. -/

structure DatasetRow where
  dataset_id : List Nat
  name : List Nat
  desc : List Nat

structure Candidate where
  dataset_id : List Nat
  label : List Nat
  why : List Nat
  score : Rat

/-- Python `str.split()` with no separator: maximal runs of non-whitespace. -/
def splitWSAux : List Nat → List Nat → List (List Nat)
  | acc, [] => if acc.isEmpty then [] else [acc.reverse]
  | acc, c :: t =>
    if isPySpace c then
      if acc.isEmpty then splitWSAux [] t else acc.reverse :: splitWSAux [] t
    else splitWSAux (c :: acc) t

def splitWS (l : List Nat) : List (List Nat) := splitWSAux [] l

/-- `f"{name} {desc}".lower()` for one dataset row. -/
def kwText (d : DatasetRow) : List Nat := lower (d.name ++ [32] ++ d.desc)

/-- `ql.split()` for `ql = question.lower()`. -/
def kwWords (q : List Nat) : List (List Nat) := splitWS (lower q)

/-- The keyword score of one dataset:
`sum(1 for w in ql.split() if len(w) > 2 and w in text) / max(len(ql.split()), 1)`. -/
def kwScore (q : List Nat) (d : DatasetRow) : Rat :=
  let ws := kwWords q
  ((ws.countP fun w => decide (2 < w.length) && containsB w (kwText d)) : Rat) /
    ((max ws.length 1 : Nat) : Rat)

/-- Nearest integer with ties to even, which is how Python `round` resolves
the half-way case. -/
def halfEven (q : Rat) : Int :=
  if q - (⌊q⌋ : Rat) < 1 / 2 then ⌊q⌋
  else if 1 / 2 < q - (⌊q⌋ : Rat) then ⌊q⌋ + 1
  else if ⌊q⌋ % 2 = 0 then ⌊q⌋ else ⌊q⌋ + 1

/-- `round(x, 4)` over the rational score model. -/
def rnd4 (q : Rat) : Rat := ((halfEven (q * 10000) : Int) : Rat) / 10000

/-- The keyword branch of `MetadataRetriever.retrieve`: score every registry
row, keep positive scores in row order, sort stably by descending score
(Python `list.sort` is stable; so is `List.mergeSort`), slice to `top_k` and
round the reported scores. -/
def retrieve_keyword (q : List Nat) (rows : List DatasetRow) (top_k : Nat) :
    List Candidate :=
  let cands := rows.filterMap fun d =>
    if 0 < kwScore q d then
      some (⟨d.dataset_id, d.name, d.desc, kwScore q d⟩ : Candidate)
    else none
  let sorted := cands.mergeSort fun a b => decide (b.score ≤ a.score)
  (sorted.take top_k).map fun c => { c with score := rnd4 c.score }

/-! ## app/agent.py: `NLQAgent` -/

/-- What the SQLite collaborator hands back for one executed statement:
column names and serialized rows (their contents never steer the agent). -/
structure ExecResult where
  columns : List (List Nat)
  rows : List J

/-- The collaborators `NLQAgent.query` composes, abstracted at their
interface: the retriever's candidate list for the incoming question, the
context builder's text per dataset id, the optional LLM (absence selects the
fallback path), the `nlq_table_registry` rows per dataset id, and the
SQL-executing store (`Except.error` is a raised exception's `str(e)`). -/
structure AgentEnv where
  candidates : List Candidate
  context : List Nat → List Nat
  llm : Option (List Nat → List Nat)
  registry : List Nat → List (List Nat × List Nat)
  db : List Nat → Except (List Nat) ExecResult

/-- The response dicts `query` can return, as a tagged variant (`status` is
the tag; the other fields are the keys the corresponding dict carries).
Message and sql values are Python objects (`J`). -/
inductive QResp where
  | error (message : J) (sql : Option J) (dataset_id : Option (List Nat)) : QResp
  | needsSelection (choices : List (List Nat × List Nat × List Nat)) (message : J) : QResp
  | needsClarification (q : J) : QResp
  | ok (dataset_id : List Nat) (sql : J) (results : ExecResult)
      (explanation : List (List Nat × J)) : QResp

def isNeedsSelection : QResp → Bool
  | .needsSelection _ _ => true
  | _ => false

/-- `NLQAgent.execute_sql` (lines 112-130): limit injection, then
validation (a failure raises `ValueError(err)`), then the store. Alongside
the outcome, the embedding records the statements actually sent to the
store, so that non-execution of rejected SQL is a provable fact. -/
def execute_sql (db : List Nat → Except (List Nat) ExecResult) (sql : List Nat) :
    Except (List Nat) ExecResult × List (List Nat) :=
  let s := add_limit_if_missing sql
  let v := validate_sql s
  if v.1 then
    match db s with
    | .ok r => (.ok r, [s])
    | .error e => (.error e, [s])
  else (.error v.2, [])

/-- Python truthiness of the `dataset_id` argument (`if dataset_id:`). -/
def overrideGiven : Option (List Nat) → Bool
  | none => false
  | some d => !d.isEmpty

/-- The `elif`/`else` of the selection block (lines 153-163): with at least
two candidates and a top-two gap under the threshold, surface the top 3;
otherwise pick the top candidate. -/
def disambig (c0 : Candidate) (rest : List Candidate) (thr : Rat) :
    Sum Candidate (List Candidate) :=
  match rest with
  | c1 :: _ =>
    if c0.score - c1.score < thr then Sum.inr ((c0 :: rest).take 3) else Sum.inl c0
  | [] => Sum.inl c0

/-- The selection block of `NLQAgent.query` (lines 149-163), on a non-empty
candidate list. A truthy override picks the first candidate with that id,
falling back to the top candidate when none matches (`next(..., candidates[0])`). -/
def selectStep (c0 : Candidate) (rest : List Candidate) (o : Option (List Nat))
    (thr : Rat) : Sum Candidate (List Candidate) :=
  match o with
  | some d =>
    if d.isEmpty then disambig c0 rest thr
    else Sum.inl (((c0 :: rest).find? fun c => decide (c.dataset_id = d)).getD c0)
  | none => disambig c0 rest thr

/-- The `str(e)` text of the `AttributeError` Python raises inside
`execute_sql` when a truthy non-string `sql` reaches `sql.strip()`; the
claims depend on the response's shape there, never on this text. -/
def attrError : List Nat := strN "AttributeError"

/-- The explanation dict of the ok response (lines 208-212). A key present
with a null value yields that `None`, as `meta.get` does. -/
def okExplanation (meta : Option MetaD) : List (List Nat × J) :=
  match meta with
  | some m =>
    [(strN "tables", m.tables_used.getD (J.arr [])),
     (strN "assumptions", m.assumptions.getD (J.arr [])),
     (strN "notes", m.explanation.getD (J.str []))]
  | none =>
    [(strN "tables", J.arr []), (strN "assumptions", J.arr []), (strN "notes", J.str [])]

/-- The response the try/except around execution builds from the executor's
outcome (lines 193-213): on success the ok payload, on an exception an error
response that keeps the offending `sql` and the resolved dataset id. -/
def execRespond (resolved s : List Nat) (meta : Option MetaD)
    (er : Except (List Nat) ExecResult × List (List Nat)) : QResp × List (List Nat) :=
  match er.1 with
  | .ok r => (QResp.ok resolved (J.str s) r (okExplanation meta), er.2)
  | .error e =>
    (QResp.error (J.str (strN "SQL execution failed: " ++ e)) (some (J.str s))
      (some resolved), er.2)

/-- The try/except around execution (lines 193-213). A truthy non-string
`sql` raises an `AttributeError` inside `execute_sql` before anything reaches
the store; the except-branch catches it, so the error response still keeps
`sql` and the dataset id and nothing is executed. -/
def runExec (db : List Nat → Except (List Nat) ExecResult) (resolved : List Nat)
    (sql : J) (meta : Option MetaD) : QResp × List (List Nat) :=
  match sql with
  | J.str s => execRespond resolved s meta (execute_sql db s)
  | v =>
    (QResp.error (J.str (strN "SQL execution failed: " ++ attrError)) (some v)
      (some resolved), [])

/-- `meta.get("explanation", "Could not generate SQL") if meta else
"Could not generate SQL"` (line 190). -/
def noSqlMessage (meta : Option MetaD) : J :=
  match meta with
  | some m =>
    match m.explanation with
    | some v => v
    | none => J.str (strN "Could not generate SQL")
  | none => J.str (strN "Could not generate SQL")

/-- The responses `_fallback_sql`'s try/except builds from the executor's
outcome (lines 242-252): the ok payload with the fallback explanation, or an
error response carrying only the exception text. -/
def fallbackRespond (dataset_id table sql : List Nat)
    (er : Except (List Nat) ExecResult × List (List Nat)) : QResp × List (List Nat) :=
  match er.1 with
  | .ok r =>
    (QResp.ok dataset_id (J.str sql) r
      [(strN "tables", J.arr [J.str table]),
       (strN "notes", J.str (strN "Fallback template SQL (LLM not configured)"))], er.2)
  | .error e => (QResp.error (J.str e) none none, er.2)

/-- `NLQAgent._fallback_sql` (lines 215-252). The dead initial assignment
`sql = f"SELECT * FROM {full_table}"` of line 230 is overwritten on every
branch and is omitted. -/
def fallback_sql (env : AgentEnv) (question : List Nat) (dataset_id : List Nat) :
    QResp × List (List Nat) :=
  let q := lower question
  match env.registry dataset_id with
  | [] => (QResp.error (J.str (strN "No tables for dataset")) none none, [])
  | (schema, table) :: _ =>
    let full_table := if schema.isEmpty then table else schema ++ [46] ++ table
    let sql :=
      if containsB (strN "delinquency") q || containsB (strN "30-89") q ||
          containsB (strN "90") q then
        if containsB (strN "state") q then
          strN "SELECT * FROM cpfb_state_delinquency_30_89 WHERE date >= '2023-01-01' ORDER BY date DESC"
        else
          strN "SELECT * FROM cpfb_metro_delinquency_30_89 WHERE date >= '2023-01-01' ORDER BY date DESC LIMIT 100"
      else if containsB (strN "rate") q || containsB (strN "mortgage") q then
        strN "SELECT * FROM fred_mortgage_rates WHERE date >= '2023-01-01' ORDER BY date DESC LIMIT 100"
      else if containsB (strN "hpi") q || containsB (strN "house price") q ||
          containsB (strN "index") q then
        strN "SELECT * FROM fhfa_hpi_state WHERE period >= '2023Q1' ORDER BY period DESC LIMIT 100"
      else strN "SELECT * FROM " ++ full_table ++ strN " LIMIT 100"
    fallbackRespond dataset_id table sql (execute_sql env.db sql)

/-- The prompt f-string of lines 173-178. -/
def buildPrompt (context question : List Nat) : List Nat :=
  strN "Context:\n" ++ context ++ strN "\n\nUser question: " ++ question ++
    strN "\n\nGenerate a SQL query. Respond with JSON only."

/-- `NLQAgent.query` (lines 132-213), with the statements sent to the store
alongside the response. -/
def query (env : AgentEnv) (question : List Nat) (dataset_id : Option (List Nat))
    (thr : Rat) : QResp × List (List Nat) :=
  match env.candidates with
  | [] =>
    (QResp.error (J.str (strN "No matching datasets found. Try rephrasing your question."))
      none none, [])
  | c0 :: rest =>
    match selectStep c0 rest dataset_id thr with
    | Sum.inr cs =>
      (QResp.needsSelection (cs.map fun c => (c.dataset_id, c.label, c.why))
        (J.str (strN "Which data source should I use?")), [])
    | Sum.inl selected =>
      let resolved := selected.dataset_id
      match env.llm with
      | none => fallback_sql env question resolved
      | some f =>
        let r := extract_sql_from_response (f (buildPrompt (env.context resolved) question))
        if r.needs_clar && truthy r.fourth then (QResp.needsClarification r.fourth, [])
        else if !truthy r.sql then (QResp.error (noSqlMessage r.meta) none none, [])
        else runExec env.db resolved r.sql r.meta

example :
    add_limit_if_missing (strN "SELECT * FROM fred_mortgage_rates") =
      strN "SELECT * FROM fred_mortgage_rates LIMIT 1000" := by decide

example :
    (validate_sql (strN "SELECT * FROM cpfb_state_delinquency_30_89; DROP TABLE users;")).1
      = false := by decide

example :
    (validate_sql (strN "SELECT * FROM unknown_table")).2 =
      strN "Table not allowed: unknown_table" := by decide

example : (validate_sql (strN "SELECT rate FROM fred_mortgage_rates LIMIT 5")).1 = true := by
  decide

/-! ## Basic lemmas about the text utilities -/

theorem isPrefB_iff (a b : List Nat) : isPrefB a b = true ↔ a <+: b := by
  induction a generalizing b with
  | nil => simp [isPrefB]
  | cons x as ih =>
    cases b with
    | nil => simp [isPrefB]
    | cons y bs => simp [isPrefB, List.cons_prefix_cons, ih]

theorem containsB_iff (n h : List Nat) : containsB n h = true ↔ n <:+: h := by
  induction h with
  | nil => simp [containsB, List.isEmpty_iff]
  | cons c t ih => simp [containsB, List.infix_cons_iff, isPrefB_iff, ih]

theorem lc_uc (n : Nat) : lc (uc n) = lc n := by
  unfold lc uc
  split_ifs <;> omega

theorem lower_upper (m : List Nat) : lower (upper m) = lower m := by
  simp only [lower, upper, List.map_map]
  exact List.map_congr_left fun a _ => lc_uc a

theorem lstrip_suffix (l : List Nat) : lstrip l <:+ l := List.dropWhile_suffix _

theorem rstrip_isPrefix (l : List Nat) : rstrip l <+: l := by
  have h := List.dropWhile_suffix (l := l.reverse) isPySpace
  rw [← List.reverse_suffix]
  simpa [rstrip] using h

theorem pyStrip_isInfix (l : List Nat) : pyStrip l <:+: l :=
  ((rstrip_isPrefix (lstrip l)).isInfix).trans (lstrip_suffix l).isInfix

/-- The remainder of a `dropWhile` is empty or starts with an element
failing the predicate. -/
theorem dropWhile_head (p : Nat → Bool) (l : List Nat) :
    l.dropWhile p = [] ∨ ∃ a t, l.dropWhile p = a :: t ∧ p a = false := by
  induction l with
  | nil => left; rfl
  | cons c r ih =>
    by_cases h : p c
    · simpa [List.dropWhile_cons, h] using ih
    · right
      exact ⟨c, r, by simp [List.dropWhile_cons, h], by simp [h]⟩

theorem dropWhile_idem (p : Nat → Bool) (l : List Nat) :
    (l.dropWhile p).dropWhile p = l.dropWhile p := by
  rcases dropWhile_head p l with h | ⟨a, t, h, ha⟩
  · simp [h]
  · simp [h, List.dropWhile_cons, ha]

theorem rstrip_idem (l : List Nat) : rstrip (rstrip l) = rstrip l := by
  simp [rstrip, dropWhile_idem]

theorem lstrip_cons_of (c : Nat) (t : List Nat) (h : isPySpace c = false) :
    lstrip (c :: t) = c :: t := by
  simp [lstrip, List.dropWhile_cons, h]

theorem rstrip_append_last (x : List Nat) (a : Nat) (h : isPySpace a = false) :
    rstrip (x ++ [a]) = x ++ [a] := by
  simp [rstrip, List.dropWhile_cons, h]

/-- A non-empty prefix of `a :: t` starts with `a`. -/
theorem prefix_cons_ne (x : List Nat) (a : Nat) (t : List Nat)
    (h : x <+: a :: t) (hne : x ≠ []) : ∃ t2, x = a :: t2 := by
  cases x with
  | nil => exact absurd rfl hne
  | cons b x2 =>
    obtain ⟨r, hr⟩ := h
    rw [List.cons_append] at hr
    injection hr with h1 _
    exact ⟨x2, by rw [h1]⟩

/-- A stripped text is empty or starts with a non-space character. -/
theorem pyStrip_head (l : List Nat) :
    pyStrip l = [] ∨ ∃ a t, pyStrip l = a :: t ∧ isPySpace a = false := by
  rcases dropWhile_head isPySpace l with h | ⟨a, t, h, ha⟩
  · left; simp [pyStrip, lstrip, h, rstrip]
  · by_cases hr : rstrip (a :: t) = []
    · left; simp [pyStrip, lstrip, h, hr]
    · right
      obtain ⟨t2, ht2⟩ := prefix_cons_ne _ a t (rstrip_isPrefix (a :: t)) hr
      exact ⟨a, t2, by simp [pyStrip, lstrip, h, ht2], ha⟩

theorem lstrip_pyStrip (l : List Nat) : lstrip (pyStrip l) = pyStrip l := by
  rcases pyStrip_head l with h | ⟨a, t, h, ha⟩
  · simp [h, lstrip]
  · rw [h, lstrip_cons_of a t ha]

theorem rstrip_pyStrip (l : List Nat) : rstrip (pyStrip l) = pyStrip l := by
  simp [pyStrip, rstrip_idem]

theorem pyStrip_idem (l : List Nat) : pyStrip (pyStrip l) = pyStrip l := by
  conv_lhs => rw [pyStrip, lstrip_pyStrip]
  exact rstrip_pyStrip l

/-! ## C1: the guardrail validator -/

theorem kwHit_iff (sql kw : List Nat) :
    kwHit sql kw = true ↔ lower kw <:+: lower sql := by
  unfold kwHit
  rw [Bool.or_eq_true, containsB_iff, containsB_iff]
  constructor
  · rintro (h | h)
    · have h2 := h.map lc
      rw [show (upper kw).map lc = lower (upper kw) from rfl,
          show (upper (pyStrip sql)).map lc = lower (upper (pyStrip sql)) from rfl,
          lower_upper, lower_upper] at h2
      exact h2.trans ((pyStrip_isInfix sql).map lc)
    · exact h
  · intro h
    exact Or.inr h

theorem firstBlocked_none_iff (sql : List Nat) (L : List (List Nat)) :
    firstBlocked sql L = none ↔ ∀ kw ∈ L, kwHit sql kw = false := by
  induction L with
  | nil => simp [firstBlocked]
  | cons k t ih =>
    by_cases h : kwHit sql k <;> simp [firstBlocked, h, ih]

theorem firstBlocked_some (sql : List Nat) (L : List (List Nat)) (kw : List Nat)
    (h : firstBlocked sql L = some kw) : kw ∈ L ∧ kwHit sql kw = true := by
  induction L with
  | nil => simp [firstBlocked] at h
  | cons k t ih =>
    by_cases hk : kwHit sql k
    · simp [firstBlocked, hk] at h
      simp [← h, hk]
    · simp only [firstBlocked, hk, Bool.false_eq_true, if_false] at h
      have := ih h
      exact ⟨List.mem_cons_of_mem _ this.1, this.2⟩

theorem lowerMem_iff (t : List Nat) (tables : List (List Nat)) :
    lowerMem t tables = true ↔ lower t ∈ tables.map lower := by
  simp [lowerMem]

theorem firstBadTable_none_iff (tables : List (List Nat)) (L : List (List Nat)) :
    firstBadTable tables L = none ↔ ∀ t ∈ L, lowerMem t tables = true := by
  induction L with
  | nil => simp [firstBadTable]
  | cons x r ih =>
    rw [List.forall_mem_cons]
    by_cases h : lowerMem x tables
    · simp [firstBadTable, h, ih]
    · simp [firstBadTable, h]

theorem firstBadTable_some (tables L : List (List Nat)) (t : List Nat)
    (h : firstBadTable tables L = some t) :
    t ∈ L ∧ lowerMem t tables = false := by
  induction L with
  | nil => simp [firstBadTable] at h
  | cons x r ih =>
    by_cases hx : lowerMem x tables
    · simp only [firstBadTable, hx, Bool.not_true, Bool.false_eq_true, if_false] at h
      have := ih h
      exact ⟨List.mem_cons_of_mem _ this.1, this.2⟩
    · simp only [firstBadTable, hx, Bool.not_false, if_true, Option.some.injEq] at h
      subst h
      exact ⟨List.mem_cons_self _ _, by simpa using hx⟩

/-- C1: `validate_sql` passes exactly when the trimmed statement is
non-empty, no blocked token occurs case-insensitively anywhere in the
statement, and every table name the FROM/JOIN pattern scan extracts is a
case-insensitive member of the allow-list; a failure over a non-empty
statement cites a blocked keyword that does occur, or an extracted table
that is outside the allow-list. -/
theorem C1_validate_sql (sql : List Nat) :
    ((validate_sql sql).1 = true ↔
      (pyStrip sql ≠ [] ∧
       (∀ kw ∈ BLOCKED_KEYWORDS, ¬ lower kw <:+: lower sql) ∧
       (∀ t ∈ extractTables sql, lower t ∈ ALLOWED_TABLES.map lower))) ∧
    (pyStrip sql = [] → validate_sql sql = (false, strN "Empty SQL")) ∧
    (pyStrip sql ≠ [] → ¬ (∀ kw ∈ BLOCKED_KEYWORDS, ¬ lower kw <:+: lower sql) →
      ∃ kw ∈ BLOCKED_KEYWORDS, lower kw <:+: lower sql ∧
        validate_sql sql = (false, strN "Blocked keyword: " ++ kw)) ∧
    (pyStrip sql ≠ [] → (∀ kw ∈ BLOCKED_KEYWORDS, ¬ lower kw <:+: lower sql) →
      ¬ (∀ t ∈ extractTables sql, lower t ∈ ALLOWED_TABLES.map lower) →
      ∃ t ∈ extractTables sql, lower t ∉ ALLOWED_TABLES.map lower ∧
        validate_sql sql = (false, strN "Table not allowed: " ++ t)) := by
  by_cases he : pyStrip sql = []
  · have hv : validate_sql sql = (false, strN "Empty SQL") := by
      simp [validate_sql, validate_sql_with, he]
    refine ⟨?_, fun _ => hv, fun h0 _ => absurd he h0, fun h0 _ _ => absurd he h0⟩
    rw [hv]
    simp [he]
  · rcases hb : firstBlocked sql BLOCKED_KEYWORDS with _ | kw
    · have hnone := (firstBlocked_none_iff sql BLOCKED_KEYWORDS).mp hb
      have hkwAll : ∀ kw ∈ BLOCKED_KEYWORDS, ¬ lower kw <:+: lower sql := by
        intro kw hmem hinf
        have h2 := (kwHit_iff sql kw).mpr hinf
        rw [hnone kw hmem] at h2
        exact Bool.false_ne_true h2
      rcases ht : firstBadTable ALLOWED_TABLES (extractTables sql) with _ | t
      · have htall : ∀ t ∈ extractTables sql, lower t ∈ ALLOWED_TABLES.map lower := by
          intro t hm
          exact (lowerMem_iff t ALLOWED_TABLES).mp
            ((firstBadTable_none_iff ALLOWED_TABLES (extractTables sql)).mp ht t hm)
        have hv : validate_sql sql = (true, []) := by
          simp [validate_sql, validate_sql_with, he, hb, ht]
        refine ⟨?_, fun h0 => absurd h0 he, fun _ hno => absurd hkwAll hno,
          fun _ _ hno => absurd htall hno⟩
        rw [hv]
        simp only [true_iff]
        exact ⟨he, hkwAll, htall⟩
      · have hbad := firstBadTable_some _ _ _ ht
        have hnot : lower t ∉ ALLOWED_TABLES.map lower := by
          intro hm
          have := (lowerMem_iff t ALLOWED_TABLES).mpr hm
          rw [hbad.2] at this
          exact Bool.false_ne_true this
        have hv : validate_sql sql = (false, strN "Table not allowed: " ++ t) := by
          simp [validate_sql, validate_sql_with, he, hb, ht]
        refine ⟨?_, fun h0 => absurd h0 he, fun _ hno => absurd hkwAll hno,
          fun _ _ _ => ⟨t, hbad.1, hnot, hv⟩⟩
        rw [hv]
        simp only [Bool.false_eq_true, false_iff]
        rintro ⟨-, -, hall⟩
        exact hnot (hall t hbad.1)
    · have hkw := firstBlocked_some sql BLOCKED_KEYWORDS kw hb
      have hinf := (kwHit_iff sql kw).mp hkw.2
      have hv : validate_sql sql = (false, strN "Blocked keyword: " ++ kw) := by
        simp [validate_sql, validate_sql_with, he, hb]
      refine ⟨?_, fun h0 => absurd h0 he, fun _ _ => ⟨kw, hkw.1, hinf, hv⟩,
        fun _ hall _ => absurd hinf (hall kw hkw.1)⟩
      rw [hv]
      simp only [Bool.false_eq_true, false_iff]
      rintro ⟨-, hno, -⟩
      exact hno kw hkw.1 hinf

-- concrete behaviour of the parser embedding
example :
    extract_sql_from_response (strN "Sure! ```sql\nSELECT * FROM fred_mortgage_rates\n```") =
      ⟨J.str (strN "SELECT * FROM fred_mortgage_rates"), some emptyMeta, false, J.null⟩ := by
  rfl

example :
    extract_sql_from_response (strN "\x7b\"sql\": null\x7d") =
      ⟨J.null, some emptyMeta, false, J.null⟩ := by rfl

example :
    extract_sql_from_response (strN "\x7b\"sql\": \"SELECT 1\", \"assumptions\": [\"a\"]\x7d") =
      ⟨J.str (strN "SELECT 1"),
       some ⟨some (J.arr [J.str (strN "a")]), none, none⟩, false, J.null⟩ := by rfl

example :
    extract_sql_from_response
        (strN "\x7b\"sql\": null, \"needs_clarification\": true, \"clarifying_question\": \"Which state?\"\x7d") =
      ⟨J.null, none, true, J.str (strN "Which state?")⟩ := by rfl

example :
    extract_sql_from_response (strN "\x7b\"sql\": broken\x7d and select 1 from t; x") =
      ⟨J.str (strN "select 1 from t;"), some emptyMeta, false, J.null⟩ := by rfl

example : extract_sql_from_response (strN "no query here") = failParse := by rfl

/-! ## C7: limit injection -/

theorem upper_append (a b : List Nat) : upper (a ++ b) = upper a ++ upper b :=
  List.map_append uc a b

theorem contains_limit_append (x : List Nat) :
    containsB (strN "LIMIT") (upper (x ++ strN " LIMIT 1000")) = true := by
  rw [containsB_iff, upper_append]
  have h1 : strN "LIMIT" <:+: upper (strN " LIMIT 1000") := by
    rw [← containsB_iff]; decide
  exact h1.trans (List.suffix_append _ _).isInfix

/-- A statement of the shape the injection branch emits — a non-space head
and the appended limit clause — is a fixed point of `add_limit_if_missing`. -/
theorem addlimit_out_fixed (a : Nat) (ha : isPySpace a = false) (m : List Nat) :
    add_limit_if_missing (a :: (m ++ strN " LIMIT 1000")) =
      a :: (m ++ strN " LIMIT 1000") := by
  have hsplit : strN " LIMIT 1000" = strN " LIMIT 100" ++ [48] := by decide
  have h48 : isPySpace 48 = false := by decide
  have h2 : a :: (m ++ strN " LIMIT 1000") = (a :: (m ++ strN " LIMIT 100")) ++ [48] := by
    rw [hsplit]
    simp
  have key : pyStrip (a :: (m ++ strN " LIMIT 1000")) = a :: (m ++ strN " LIMIT 1000") := by
    rw [pyStrip, lstrip_cons_of _ _ ha, h2, rstrip_append_last _ _ h48]
  have hcont : containsB (strN "LIMIT")
      (upper (a :: (m ++ strN " LIMIT 1000"))) = true := contains_limit_append (a :: m)
  have hcont2 : containsB (strN "LIMIT")
      (upper (pyStrip (a :: (m ++ strN " LIMIT 1000")))) = true := by
    rw [key]
    exact hcont
  simp [add_limit_if_missing, add_limit_with, hcont2, hcont, key]

theorem limit_tail_eq : strN " LIMIT " ++ strN (toString 1000) = strN " LIMIT 1000" := by
  decide

/-- C7 (amended): a statement already containing `LIMIT` (case-insensitive)
comes back trimmed of surrounding whitespace but otherwise unchanged; a
statement without `LIMIT` is trimmed, loses one trailing `;`, and gets
` LIMIT 1000` appended; the operation is idempotent on every input whose
trimmed form is neither empty nor a lone `;` (those two gain a leading
space on the first pass that the second pass trims); and the named scenario
holds. -/
theorem C7_add_limit_amended (sql : List Nat) :
    (containsB (strN "LIMIT") (upper (pyStrip sql)) = true →
       add_limit_if_missing sql = pyStrip sql) ∧
    (containsB (strN "LIMIT") (upper (pyStrip sql)) = false →
       add_limit_if_missing sql =
         (if (pyStrip sql).getLast? = some 59 then (pyStrip sql).dropLast
          else pyStrip sql) ++ strN " LIMIT 1000") ∧
    (pyStrip sql ≠ [] → pyStrip sql ≠ strN ";" →
       add_limit_if_missing (add_limit_if_missing sql) = add_limit_if_missing sql) ∧
    add_limit_if_missing (strN "SELECT * FROM fred_mortgage_rates") =
      strN "SELECT * FROM fred_mortgage_rates LIMIT 1000" := by
  have heq : ∀ l : List Nat, containsB (strN "LIMIT") (upper (pyStrip l)) = false →
      add_limit_if_missing l =
        (if (pyStrip l).getLast? = some 59 then (pyStrip l).dropLast
         else pyStrip l) ++ strN " LIMIT 1000" := by
    intro l h
    simp only [add_limit_if_missing, add_limit_with, h, Bool.false_eq_true, if_false,
      rstrip_pyStrip, List.append_assoc, limit_tail_eq]
  refine ⟨?_, heq sql, ?_, by decide⟩
  · intro h
    simp [add_limit_if_missing, add_limit_with, h]
  · intro hne hsemi
    by_cases h : containsB (strN "LIMIT") (upper (pyStrip sql)) = true
    · have h1 : add_limit_if_missing sql = pyStrip sql := by
        simp [add_limit_if_missing, add_limit_with, h]
      rw [h1]
      simp [add_limit_if_missing, add_limit_with, pyStrip_idem, h]
    · have hf : containsB (strN "LIMIT") (upper (pyStrip sql)) = false :=
        Bool.eq_false_iff.mpr h
      rw [heq sql hf]
      rcases pyStrip_head sql with h0 | ⟨a, t, hs, ha⟩
      · exact absurd h0 hne
      · rw [hs]
        by_cases hl : (a :: t).getLast? = some 59
        · rw [if_pos hl]
          cases t with
          | nil =>
            exfalso
            apply hsemi
            rw [hs]
            have : a = 59 := by simpa using hl
            rw [this]
            decide
          | cons u t2 =>
            rw [show (a :: u :: t2).dropLast = a :: (u :: t2).dropLast from rfl]
            exact addlimit_out_fixed a ha _
        · rw [if_neg hl]
          exact addlimit_out_fixed a ha t

/-- C7 counterexample: the claim's "returned unchanged" clause fails for a
statement with surrounding whitespace, and its idempotence clause fails for
the empty statement. -/
theorem C7_cex :
    add_limit_if_missing (strN " SELECT 1 LIMIT 5 ") ≠ strN " SELECT 1 LIMIT 5 " ∧
    add_limit_if_missing (add_limit_if_missing (strN "")) ≠
      add_limit_if_missing (strN "") := by
  constructor
  · decide
  · decide

/-! ## C5, C6: the response parser -/

def isNull : J → Bool
  | .null => true
  | _ => false

theorem isNull_eq (v : J) : isNull v = true ↔ v = J.null := by
  cases v <;> simp [isNull]

theorem isNull_null : isNull J.null = true := rfl

/-- How many of the claim's three variants a parse result populates: a
non-null SQL value, a clarification signal, a failure reason. -/
def popCount (r : ParseResult) : Nat :=
  (if isNull r.sql then 0 else 1) + (if r.needs_clar then 1 else 0) +
    (if !r.needs_clar && !isNull r.fourth then 1 else 0)

theorem popCount_fenceOrRaw (text : List Nat) : popCount (fenceOrRaw text) = 1 := by
  rw [fenceOrRaw]
  rcases fenceFind text with _ | cap
  · rcases findLowerIdx (strN "select") text with _ | tail
    · rfl
    · dsimp only
      by_cases h : (pyStrip (upToSemi tail)).isEmpty
      · simp only [h, if_true]
        rfl
      · simp only [h, Bool.false_eq_true, if_false]
        rfl
  · rfl

/-- C5 (amended): the parser is total by construction and populates at most
one variant; it populates exactly one, except precisely when the structured
strategy decodes an object whose `sql` is null or absent without a truthy
clarification flag — then no variant is populated (null SQL with a metadata
dict, no clarification, no reason). -/
theorem C5_parse_variants (text : List Nat) :
    popCount (extract_sql_from_response text) = 1 ∨
    (popCount (extract_sql_from_response text) = 0 ∧
     ∃ m, extract_sql_from_response text = ⟨J.null, some m, false, J.null⟩) := by
  rw [extract_sql_from_response]
  rcases findJson (pyStrip text) with _ | frag
  · exact Or.inl (popCount_fenceOrRaw _)
  · dsimp only
    rcases loadsObj frag with _ | obj
    · exact Or.inl (popCount_fenceOrRaw _)
    · dsimp only
      by_cases hc : truthy (pyGet obj "needs_clarification") = true
      · simp only [hc, if_true]
        exact Or.inl rfl
      · simp only [hc, Bool.not_eq_true, if_false, Bool.false_eq_true]
        by_cases hs : isNull (pyGet obj "sql") = true
        · right
          have hnull : pyGet obj "sql" = J.null := (isNull_eq _).mp hs
          exact ⟨by simp [popCount, hs, isNull_null], _, by rw [hnull]⟩
        · left
          rw [Bool.not_eq_true] at hs
          simp [popCount, hs, isNull_null]

/-- C5 counterexample: on input `{"sql": null}` the parser populates no
variant at all — null SQL, no clarification, no failure reason. -/
theorem C5_cex :
    popCount (extract_sql_from_response (strN "\x7b\"sql\": null\x7d")) = 0 := by rfl

/-- C6: the three strategies run in strict order with the first success
winning; a brace-delimited block that fails to decode falls through to the
fenced/raw strategies instead of terminating; when nothing matches, the
failure variant carries the reason "Could not extract SQL from response";
and the fenced-block scenario parses as stated. -/
theorem C6_parser_strategy_order :
    (∀ text frag obj, findJson (pyStrip text) = some frag → loadsObj frag = some obj →
      extract_sql_from_response text =
        (if truthy (pyGet obj "needs_clarification") then
          (⟨J.null, none, true, pyGet obj "clarifying_question"⟩ : ParseResult)
        else
          ⟨pyGet obj "sql",
           some ⟨getKey obj "assumptions", getKey obj "tables_used", getKey obj "explanation"⟩,
           false, J.null⟩)) ∧
    (∀ text frag, findJson (pyStrip text) = some frag → loadsObj frag = none →
      extract_sql_from_response text = fenceOrRaw (pyStrip text)) ∧
    (∀ text, findJson (pyStrip text) = none →
      extract_sql_from_response text = fenceOrRaw (pyStrip text)) ∧
    (∀ text cap, fenceFind text = some cap →
      fenceOrRaw text = ⟨J.str (pyStrip cap), some emptyMeta, false, J.null⟩) ∧
    (∀ text, fenceFind text = none → findLowerIdx (strN "select") text = none →
      fenceOrRaw text = failParse) ∧
    extract_sql_from_response (strN "Sure! ```sql\nSELECT * FROM fred_mortgage_rates\n```") =
      ⟨J.str (strN "SELECT * FROM fred_mortgage_rates"), some emptyMeta, false, J.null⟩ ∧
    failParse.fourth = J.str (strN "Could not extract SQL from response") := by
  refine ⟨?_, ?_, ?_, ?_, ?_, by rfl, by rfl⟩
  · intro text frag obj h1 h2
    simp only [extract_sql_from_response, h1, h2]
  · intro text frag h1 h2
    simp only [extract_sql_from_response, h1, h2]
  · intro text h1
    simp only [extract_sql_from_response, h1]
  · intro text cap h
    simp only [fenceOrRaw, h]
  · intro text h1 h2
    simp only [fenceOrRaw, h1, h2]

/-- C6 counterexample: when no strategy matches, the reason the code returns
is "Could not extract SQL from response" (capital C), not the claim's quoted
"could not extract SQL from response". -/
theorem C6_cex :
    (extract_sql_from_response (strN "no match here")).fourth =
      J.str (strN "Could not extract SQL from response") ∧
    (extract_sql_from_response (strN "no match here")).fourth ≠
      J.str (strN "could not extract SQL from response") := by
  constructor
  · rfl
  · intro h
    injection h with h2
    exact absurd h2 (by decide)

/-! ## Lemmas about the orchestrator's paths -/

def isClar : QResp → Bool
  | .needsClarification _ => true
  | _ => false

theorem execute_sql_trace (db : List Nat → Except (List Nat) ExecResult)
    (sql : List Nat) :
    ∀ s ∈ (execute_sql db sql).2,
      (validate_sql s).1 = true ∧ s = add_limit_if_missing sql := by
  intro s hs
  simp only [execute_sql] at hs
  by_cases hv : (validate_sql (add_limit_if_missing sql)).1 = true
  · simp only [hv, if_true] at hs
    rcases hdb : db (add_limit_if_missing sql) with r | e <;>
    · rw [hdb] at hs
      obtain rfl := List.mem_singleton.mp hs
      exact ⟨hv, rfl⟩
  · rw [Bool.not_eq_true] at hv
    simp [hv] at hs

theorem execRespond_trace (resolved s : List Nat) (meta : Option MetaD)
    (er : Except (List Nat) ExecResult × List (List Nat)) :
    (execRespond resolved s meta er).2 = er.2 := by
  rcases h : er.1 with r | e <;> simp [execRespond, h]

theorem fallbackRespond_trace (dataset_id table sql : List Nat)
    (er : Except (List Nat) ExecResult × List (List Nat)) :
    (fallbackRespond dataset_id table sql er).2 = er.2 := by
  rcases h : er.1 with r | e <;> simp [fallbackRespond, h]

theorem runExec_trace (db : List Nat → Except (List Nat) ExecResult)
    (resolved : List Nat) (sqlJ : J) (meta : Option MetaD) :
    ∀ s ∈ (runExec db resolved sqlJ meta).2,
      (validate_sql s).1 = true ∧ ∃ s0, s = add_limit_if_missing s0 := by
  intro s hs
  cases sqlJ with
  | str s0 =>
    simp only [runExec, execRespond_trace] at hs
    obtain ⟨h1, h2⟩ := execute_sql_trace db s0 s hs
    exact ⟨h1, s0, h2⟩
  | null => simp [runExec] at hs
  | bool b => simp [runExec] at hs
  | num q => simp [runExec] at hs
  | arr xs => simp [runExec] at hs
  | nan => simp [runExec] at hs
  | inf => simp [runExec] at hs
  | ninf => simp [runExec] at hs

theorem fallback_trace (env : AgentEnv) (question ds : List Nat) :
    ∀ s ∈ (fallback_sql env question ds).2,
      (validate_sql s).1 = true ∧ ∃ s0, s = add_limit_if_missing s0 := by
  intro s hs
  simp only [fallback_sql] at hs
  rcases hreg : env.registry ds with _ | ⟨⟨schema, table⟩, rest⟩
  · rw [hreg] at hs
    simp at hs
  · rw [hreg] at hs
    dsimp only at hs
    rw [fallbackRespond_trace] at hs
    obtain ⟨h1, h2⟩ := execute_sql_trace env.db _ s hs
    exact ⟨h1, _, h2⟩

theorem execRespond_not_selection (resolved s : List Nat) (meta : Option MetaD)
    (er : Except (List Nat) ExecResult × List (List Nat)) :
    isNeedsSelection (execRespond resolved s meta er).1 = false := by
  rcases h : er.1 with r | e <;> simp [execRespond, h, isNeedsSelection]

theorem execRespond_not_clar (resolved s : List Nat) (meta : Option MetaD)
    (er : Except (List Nat) ExecResult × List (List Nat)) :
    isClar (execRespond resolved s meta er).1 = false := by
  rcases h : er.1 with r | e <;> simp [execRespond, h, isClar]

theorem fallbackRespond_not_selection (dataset_id table sql : List Nat)
    (er : Except (List Nat) ExecResult × List (List Nat)) :
    isNeedsSelection (fallbackRespond dataset_id table sql er).1 = false := by
  rcases h : er.1 with r | e <;> simp [fallbackRespond, h, isNeedsSelection]

theorem fallbackRespond_not_clar (dataset_id table sql : List Nat)
    (er : Except (List Nat) ExecResult × List (List Nat)) :
    isClar (fallbackRespond dataset_id table sql er).1 = false := by
  rcases h : er.1 with r | e <;> simp [fallbackRespond, h, isClar]

theorem fallback_not_selection (env : AgentEnv) (question ds : List Nat) :
    isNeedsSelection (fallback_sql env question ds).1 = false := by
  simp only [fallback_sql]
  rcases hreg : env.registry ds with _ | ⟨⟨schema, table⟩, rest⟩
  · rfl
  · dsimp only
    exact fallbackRespond_not_selection _ _ _ _

theorem fallback_not_clar (env : AgentEnv) (question ds : List Nat) :
    isClar (fallback_sql env question ds).1 = false := by
  simp only [fallback_sql]
  rcases hreg : env.registry ds with _ | ⟨⟨schema, table⟩, rest⟩
  · rfl
  · dsimp only
    exact fallbackRespond_not_clar _ _ _ _

theorem runExec_not_selection (db : List Nat → Except (List Nat) ExecResult)
    (resolved : List Nat) (sqlJ : J) (meta : Option MetaD) :
    isNeedsSelection (runExec db resolved sqlJ meta).1 = false := by
  cases sqlJ <;>
    first
      | exact execRespond_not_selection _ _ _ _
      | rfl

theorem runExec_not_clar (db : List Nat → Except (List Nat) ExecResult)
    (resolved : List Nat) (sqlJ : J) (meta : Option MetaD) :
    isClar (runExec db resolved sqlJ meta).1 = false := by
  cases sqlJ <;>
    first
      | exact execRespond_not_clar _ _ _ _
      | rfl

/-! ## C2: nothing unvalidated is executed -/

/-- C2: every statement the orchestrator sends to the store — on the LLM
path and the fallback path alike — is the limit-injected form of some
statement and has passed the guardrail validator; a statement failing
validation contributes nothing to the executed trace. -/
theorem C2_executed_is_validated (env : AgentEnv) (question : List Nat)
    (dataset_id : Option (List Nat)) (thr : Rat) :
    ∀ s ∈ (query env question dataset_id thr).2,
      (validate_sql s).1 = true ∧ ∃ s0, s = add_limit_if_missing s0 := by
  intro s hs
  simp only [query] at hs
  rcases hc : env.candidates with _ | ⟨c0, rest⟩
  · rw [hc] at hs
    simp at hs
  · rw [hc] at hs
    dsimp only at hs
    rcases hsel : selectStep c0 rest dataset_id thr with sel | cs
    · rw [hsel] at hs
      dsimp only at hs
      rcases hllm : env.llm with _ | f
      · rw [hllm] at hs
        exact fallback_trace env question sel.dataset_id s hs
      · rw [hllm] at hs
        dsimp only at hs
        by_cases h1 :
            ((extract_sql_from_response
                (f (buildPrompt (env.context sel.dataset_id) question))).needs_clar &&
              truthy (extract_sql_from_response
                (f (buildPrompt (env.context sel.dataset_id) question))).fourth) = true
        · rw [if_pos h1] at hs
          simp at hs
        · rw [if_neg h1] at hs
          by_cases h2 :
              (!truthy (extract_sql_from_response
                (f (buildPrompt (env.context sel.dataset_id) question))).sql) = true
          · rw [if_pos h2] at hs
            simp at hs
          · rw [if_neg h2] at hs
            exact runExec_trace env.db sel.dataset_id _ _ s hs
    · rw [hsel] at hs
      simp at hs

def wEnv : AgentEnv :=
  ⟨[⟨strN "fred_rates", strN "FRED rates", strN "rates", 1⟩],
   fun _ => [], none, fun _ => [([], strN "tbl")], fun _ => .ok ⟨[], []⟩⟩

def wSQL : List Nat :=
  strN "SELECT * FROM fred_mortgage_rates WHERE date >= '2023-01-01' ORDER BY date DESC LIMIT 100"

theorem C2_witness :
    (validate_sql wSQL).1 = true ∧ ∃ s0, wSQL = add_limit_if_missing s0 :=
  C2_executed_is_validated wEnv (strN "mortgage rates") none 1 wSQL (by decide)

/-! ## C3, C4: disambiguation and override -/

/-- C3 (amended): with no override, a single candidate or a top-two gap at or
above the threshold auto-selects the top candidate, and a gap under the
threshold makes `query` return `needs_selection` with the top 3; but when an
override id is supplied and absent among the candidates, the code selects the
top candidate unconditionally instead of applying the gap test. -/
theorem C3_disambiguation_amended :
    (∀ (c0 : Candidate) (thr : Rat), disambig c0 [] thr = Sum.inl c0) ∧
    (∀ (c0 c1 : Candidate) (rest : List Candidate) (thr : Rat),
      thr ≤ c0.score - c1.score → disambig c0 (c1 :: rest) thr = Sum.inl c0) ∧
    (∀ (c0 c1 : Candidate) (rest : List Candidate) (thr : Rat),
      c0.score - c1.score < thr →
      disambig c0 (c1 :: rest) thr = Sum.inr ((c0 :: c1 :: rest).take 3)) ∧
    (∀ (c0 : Candidate) (rest : List Candidate) (thr : Rat),
      selectStep c0 rest none thr = disambig c0 rest thr) ∧
    (∀ (env : AgentEnv) (q : List Nat) (thr : Rat) (c0 c1 : Candidate)
        (rest : List Candidate),
      env.candidates = c0 :: c1 :: rest → c0.score - c1.score < thr →
      (query env q none thr).1 =
        QResp.needsSelection
          (((c0 :: c1 :: rest).take 3).map fun c => (c.dataset_id, c.label, c.why))
          (J.str (strN "Which data source should I use?"))) ∧
    (∀ (c0 : Candidate) (rest : List Candidate) (d : List Nat) (thr : Rat),
      d ≠ [] → ((c0 :: rest).find? fun c => decide (c.dataset_id = d)) = none →
      selectStep c0 rest (some d) thr = Sum.inl c0) := by
  have hgapA : ∀ (c0 c1 : Candidate) (rest : List Candidate) (thr : Rat),
      thr ≤ c0.score - c1.score → disambig c0 (c1 :: rest) thr = Sum.inl c0 := by
    intro c0 c1 rest thr h
    simp [disambig, not_lt.mpr h]
  have hgapB : ∀ (c0 c1 : Candidate) (rest : List Candidate) (thr : Rat),
      c0.score - c1.score < thr →
      disambig c0 (c1 :: rest) thr = Sum.inr ((c0 :: c1 :: rest).take 3) := by
    intro c0 c1 rest thr h
    simp [disambig, h]
  refine ⟨fun c0 thr => rfl, hgapA, hgapB, fun c0 rest thr => rfl, ?_, ?_⟩
  · intro env q thr c0 c1 rest hc h
    simp only [query, hc]
    rw [show selectStep c0 (c1 :: rest) none thr = Sum.inr ((c0 :: c1 :: rest).take 3)
      from hgapB c0 c1 rest thr h]
  · intro c0 rest d thr hd hfind
    simp [selectStep, hd, hfind]

def wCandA : Candidate := ⟨strN "a", strN "A", strN "da", 1 / 2⟩

def wCandB : Candidate := ⟨strN "b", strN "B", strN "db", 9 / 20⟩

def c3env : AgentEnv :=
  ⟨[wCandA, wCandB], fun _ => [], some fun _ => [], fun _ => [], fun _ => .error []⟩

/-- C3 counterexample: two candidates 0.05 apart (below the 0.15 threshold)
and an override id absent among them — the claim requires `needs_selection`,
but the code auto-selects the top candidate and proceeds (here to an error
response from the LLM path, not `needs_selection`). -/
theorem C3_cex :
    wCandA.score - wCandB.score < 15 / 100 ∧
    (c3env.candidates.find? fun c => decide (c.dataset_id = strN "zzz")) = none ∧
    isNeedsSelection (query c3env (strN "q") (some (strN "zzz")) (15 / 100)).1 = false := by
  refine ⟨?_, by rfl, by rfl⟩
  norm_num [wCandA, wCandB]

/-- C4 (amended): a non-empty override id found among the candidates selects
that candidate unconditionally — regardless of rank or of the top-two gap —
and `query` then never returns `needs_selection`; the empty-string id is
treated as no override (Python truthiness). -/
theorem C4_override_amended :
    (∀ (c0 : Candidate) (rest : List Candidate) (d : List Nat) (thr : Rat)
        (c : Candidate),
      d ≠ [] → ((c0 :: rest).find? fun c2 => decide (c2.dataset_id = d)) = some c →
      selectStep c0 rest (some d) thr = Sum.inl c) ∧
    (∀ (env : AgentEnv) (q d : List Nat) (thr : Rat) (c0 : Candidate)
        (rest : List Candidate),
      env.candidates = c0 :: rest → d ≠ [] →
      (∃ c ∈ c0 :: rest, c.dataset_id = d) →
      isNeedsSelection (query env q (some d) thr).1 = false) := by
  have hfound : ∀ (c0 : Candidate) (rest : List Candidate) (d : List Nat) (thr : Rat)
      (c : Candidate),
      d ≠ [] → ((c0 :: rest).find? fun c2 => decide (c2.dataset_id = d)) = some c →
      selectStep c0 rest (some d) thr = Sum.inl c := by
    intro c0 rest d thr c hd hfind
    simp [selectStep, hd, hfind]
  refine ⟨hfound, ?_⟩
  intro env q d thr c0 rest hc hd hex
  have hsome : (((c0 :: rest).find? fun c2 => decide (c2.dataset_id = d))).isSome := by
    rw [List.find?_isSome]
    obtain ⟨c, hmem, hid⟩ := hex
    exact ⟨c, hmem, by simp [hid]⟩
  obtain ⟨c, hfind⟩ := Option.isSome_iff_exists.mp hsome
  simp only [query, hc]
  rw [hfound c0 rest d thr c hd hfind]
  dsimp only
  rcases hllm : env.llm with _ | f
  · exact fallback_not_selection env q c.dataset_id
  · dsimp only
    by_cases h1 : ((extract_sql_from_response
        (f (buildPrompt (env.context c.dataset_id) q))).needs_clar &&
        truthy (extract_sql_from_response
          (f (buildPrompt (env.context c.dataset_id) q))).fourth) = true
    · rw [if_pos h1]
      rfl
    · rw [if_neg h1]
      by_cases h2 : (!truthy (extract_sql_from_response
          (f (buildPrompt (env.context c.dataset_id) q))).sql) = true
      · rw [if_pos h2]
        rfl
      · rw [if_neg h2]
        exact runExec_not_selection env.db c.dataset_id _ _

def c4env : AgentEnv :=
  ⟨[⟨[], strN "E", strN "de", 1 / 2⟩, wCandB], fun _ => [], some fun _ => [],
   fun _ => [], fun _ => .error []⟩

/-- C4 counterexample: an override id that is the empty string, present among
the candidates (a candidate whose id is the empty string), is not selected —
Python's truthiness treats it as no override, the gap test runs (0.05 < 0.15),
and `query` returns `needs_selection` instead of proceeding. -/
theorem C4_cex :
    (∃ c ∈ c4env.candidates, c.dataset_id = ([] : List Nat)) ∧
    isNeedsSelection (query c4env (strN "q") (some []) (15 / 100)).1 = true := by
  constructor
  · exact ⟨⟨[], strN "E", strN "de", 1 / 2⟩, by simp [c4env], rfl⟩
  · have hgap : ((⟨[], strN "E", strN "de", 1 / 2⟩ : Candidate)).score - wCandB.score
        < 15 / 100 := by
      simp only [wCandB]
      norm_num
    have hsel : selectStep ⟨[], strN "E", strN "de", 1 / 2⟩ [wCandB] (some [])
        (15 / 100) =
        Sum.inr (((⟨[], strN "E", strN "de", 1 / 2⟩ : Candidate) :: [wCandB]).take 3) := by
      have h0 : selectStep (⟨[], strN "E", strN "de", 1 / 2⟩ : Candidate) [wCandB]
          (some []) (15 / 100) =
          if (⟨[], strN "E", strN "de", 1 / 2⟩ : Candidate).score - wCandB.score < 15 / 100
          then Sum.inr (((⟨[], strN "E", strN "de", 1 / 2⟩ : Candidate) :: [wCandB]).take 3)
          else Sum.inl ⟨[], strN "E", strN "de", 1 / 2⟩ := rfl
      rw [h0, if_pos hgap]
    show isNeedsSelection (query c4env (strN "q") (some []) (15 / 100)).1 = true
    simp only [query, c4env]
    rw [hsel]
    rfl

/-! ## C8: error context preservation -/

/-- C8 (amended): on the LLM path, a validation or execution failure after a
dataset is resolved and SQL produced yields an error response carrying the
offending SQL and the resolved dataset id; on the fallback-template path the
error response carries only the exception text, with no SQL and no dataset
id. -/
theorem C8_error_context_amended :
    (∀ (resolved s : List Nat) (meta : Option MetaD)
        (er : Except (List Nat) ExecResult × List (List Nat)) (m : J) (so : Option J)
        (d : Option (List Nat)),
      (execRespond resolved s meta er).1 = QResp.error m so d →
      so = some (J.str s) ∧ d = some resolved) ∧
    (∀ (db : List Nat → Except (List Nat) ExecResult) (resolved : List Nat) (sqlJ : J)
        (meta : Option MetaD) (m : J) (so : Option J) (d : Option (List Nat)),
      (runExec db resolved sqlJ meta).1 = QResp.error m so d →
      so = some sqlJ ∧ d = some resolved) ∧
    (∀ (env : AgentEnv) (question ds : List Nat) (m : J) (so : Option J)
        (d : Option (List Nat)),
      (fallback_sql env question ds).1 = QResp.error m so d →
      so = none ∧ d = none) := by
  have hexec : ∀ (resolved s : List Nat) (meta : Option MetaD)
      (er : Except (List Nat) ExecResult × List (List Nat)) (m : J) (so : Option J)
      (d : Option (List Nat)),
      (execRespond resolved s meta er).1 = QResp.error m so d →
      so = some (J.str s) ∧ d = some resolved := by
    intro resolved s meta er m so d h
    rcases her : er.1 with e | r
    · rw [execRespond, her] at h
      dsimp only at h
      injection h with h1 h2 h3
      exact ⟨h2.symm, h3.symm⟩
    · rw [execRespond, her] at h
      simp at h
  refine ⟨hexec, ?_, ?_⟩
  · intro db resolved sqlJ meta m so d h
    cases sqlJ with
    | str s0 => exact hexec resolved s0 meta (execute_sql db s0) m so d h
    | null => injection h with _ h2 h3; exact ⟨h2.symm, h3.symm⟩
    | bool b => injection h with _ h2 h3; exact ⟨h2.symm, h3.symm⟩
    | num q => injection h with _ h2 h3; exact ⟨h2.symm, h3.symm⟩
    | arr xs => injection h with _ h2 h3; exact ⟨h2.symm, h3.symm⟩
    | nan => injection h with _ h2 h3; exact ⟨h2.symm, h3.symm⟩
    | inf => injection h with _ h2 h3; exact ⟨h2.symm, h3.symm⟩
    | ninf => injection h with _ h2 h3; exact ⟨h2.symm, h3.symm⟩
  · intro env question ds m so d h
    rw [fallback_sql] at h
    rcases hreg : env.registry ds with _ | ⟨⟨schema, table⟩, rest⟩
    · rw [hreg] at h
      dsimp only at h
      injection h with _ h2 h3
      exact ⟨h2.symm, h3.symm⟩
    · rw [hreg] at h
      dsimp only at h
      rcases her : (execute_sql env.db _).1 with e | r
      · rw [fallbackRespond, her] at h
        dsimp only at h
        injection h with _ h2 h3
        exact ⟨h2.symm, h3.symm⟩
      · rw [fallbackRespond, her] at h
        simp at h

def c8env : AgentEnv :=
  ⟨[⟨strN "d1", strN "D1", strN "w", 1⟩], fun _ => [], none,
   fun _ => [([], strN "tbl")], fun _ => .error (strN "boom")⟩

/-- C8 counterexample: on the fallback path a guardrail rejection (table
`tbl` is outside the allow-list) produces an error response with no SQL and
no dataset id — the claim's preservation fails there. -/
theorem C8_cex :
    query c8env (strN "xyzzy") none 1 =
      (QResp.error (J.str (strN "Table not allowed: tbl")) none none, []) := by rfl

/-! ## C10: clarification responses carry a truthy question -/

theorem extract_noJson (text : List Nat) (h : findJson (pyStrip text) = none) :
    extract_sql_from_response text = fenceOrRaw (pyStrip text) := by
  simp only [extract_sql_from_response, h]

theorem extract_badJson (text frag : List Nat) (h1 : findJson (pyStrip text) = some frag)
    (h2 : loadsObj frag = none) :
    extract_sql_from_response text = fenceOrRaw (pyStrip text) := by
  simp only [extract_sql_from_response, h1, h2]

theorem extract_json (text frag : List Nat) (obj : List (List Nat × J))
    (h1 : findJson (pyStrip text) = some frag) (h2 : loadsObj frag = some obj) :
    extract_sql_from_response text =
      if truthy (pyGet obj "needs_clarification") then
        (⟨J.null, none, true, pyGet obj "clarifying_question"⟩ : ParseResult)
      else
        ⟨pyGet obj "sql",
         some ⟨getKey obj "assumptions", getKey obj "tables_used", getKey obj "explanation"⟩,
         false, J.null⟩ := by
  simp only [extract_sql_from_response, h1, h2]

theorem fenceOrRaw_not_clar (text : List Nat) :
    (fenceOrRaw text).needs_clar = false := by
  rw [fenceOrRaw]
  rcases fenceFind text with _ | cap
  · rcases findLowerIdx (strN "select") text with _ | tail
    · rfl
    · dsimp only
      by_cases h : (pyStrip (upToSemi tail)).isEmpty
      · simp only [h, if_true]
        rfl
      · simp [h]
  · rfl

/-- C10: a parse that signals clarification always carries a null `sql`, so
when the clarifying question is missing or falsy, `query` falls through to
the no-SQL error response rather than returning `needs_clarification`; and
every `needs_clarification` response `query` emits carries a truthy
(non-null, non-empty) question. -/
theorem C10_clarification_needs_question :
    (∀ text, (extract_sql_from_response text).needs_clar = true →
      (extract_sql_from_response text).sql = J.null) ∧
    (∀ (env : AgentEnv) (question : List Nat) (o : Option (List Nat)) (thr : Rat)
        (qq : J),
      (query env question o thr).1 = QResp.needsClarification qq → truthy qq = true) ∧
    (∀ (env : AgentEnv) (question : List Nat) (o : Option (List Nat)) (thr : Rat)
        (c0 sel : Candidate) (rest : List Candidate) (f : List Nat → List Nat),
      env.candidates = c0 :: rest → selectStep c0 rest o thr = Sum.inl sel →
      env.llm = some f →
      (extract_sql_from_response
        (f (buildPrompt (env.context sel.dataset_id) question))).needs_clar = true →
      truthy (extract_sql_from_response
        (f (buildPrompt (env.context sel.dataset_id) question))).fourth = false →
      (query env question o thr).1 =
        QResp.error (noSqlMessage (extract_sql_from_response
          (f (buildPrompt (env.context sel.dataset_id) question))).meta) none none) := by
  have hclar_null : ∀ text, (extract_sql_from_response text).needs_clar = true →
      (extract_sql_from_response text).sql = J.null := by
    intro text h
    rcases hfj : findJson (pyStrip text) with _ | frag
    · rw [extract_noJson text hfj] at h ⊢
      rw [fenceOrRaw_not_clar] at h
      cases h
    · rcases hlo : loadsObj frag with _ | obj
      · rw [extract_badJson text frag hfj hlo] at h ⊢
        rw [fenceOrRaw_not_clar] at h
        cases h
      · rw [extract_json text frag obj hfj hlo] at h ⊢
        by_cases hc : truthy (pyGet obj "needs_clarification") = true
        · rw [if_pos hc]
        · rw [if_neg hc] at h
          simp at h
  refine ⟨hclar_null, ?_, ?_⟩
  · intro env question o thr qq h
    rw [query] at h
    rcases hc : env.candidates with _ | ⟨c0, rest⟩
    · rw [hc] at h
      simp at h
    · rw [hc] at h
      dsimp only at h
      rcases hsel : selectStep c0 rest o thr with sel | cs
      · rw [hsel] at h
        dsimp only at h
        rcases hllm : env.llm with _ | f
        · rw [hllm] at h
          have h2 := fallback_not_clar env question sel.dataset_id
          rw [h] at h2
          simp [isClar] at h2
        · rw [hllm] at h
          dsimp only at h
          by_cases h1 : ((extract_sql_from_response
              (f (buildPrompt (env.context sel.dataset_id) question))).needs_clar &&
              truthy (extract_sql_from_response
                (f (buildPrompt (env.context sel.dataset_id) question))).fourth) = true
          · rw [if_pos h1] at h
            dsimp only at h
            injection h with h2
            rw [← h2]
            exact (Bool.and_eq_true _ _ |>.mp h1).2
          · rw [if_neg h1] at h
            by_cases h2 : (!truthy (extract_sql_from_response
                (f (buildPrompt (env.context sel.dataset_id) question))).sql) = true
            · rw [if_pos h2] at h
              simp at h
            · rw [if_neg h2] at h
              have h3 := runExec_not_clar env.db sel.dataset_id
                (extract_sql_from_response
                  (f (buildPrompt (env.context sel.dataset_id) question))).sql
                (extract_sql_from_response
                  (f (buildPrompt (env.context sel.dataset_id) question))).meta
              rw [h] at h3
              simp [isClar] at h3
      · rw [hsel] at h
        simp at h
  · intro env question o thr c0 sel rest f hc hsel hllm hclar hfalsy
    have hsqlnull := hclar_null _ hclar
    simp only [query, hc]
    rw [hsel]
    dsimp only
    rw [hllm]
    dsimp only
    rw [if_neg (by simp [hclar, hfalsy]), if_pos (by simp [hsqlnull, truthy])]


/-! ## C9: the keyword retrieval strategy -/

theorem halfEven_bounds (q : Rat) : ⌊q⌋ ≤ halfEven q ∧ halfEven q ≤ ⌊q⌋ + 1 := by
  unfold halfEven
  split_ifs <;> omega

theorem halfEven_mono (a b : Rat) (h : a ≤ b) : halfEven a ≤ halfEven b := by
  rcases lt_or_eq_of_le (Int.floor_mono h) with hf | hf
  · have h1 := (halfEven_bounds a).2
    have h2 := (halfEven_bounds b).1
    omega
  · unfold halfEven
    rw [← hf]
    have hr : a - (⌊a⌋ : Rat) ≤ b - (⌊a⌋ : Rat) := by linarith
    split_ifs <;> first | omega | (exfalso; linarith)

theorem rnd4_mono (a b : Rat) (h : a ≤ b) : rnd4 a ≤ rnd4 b := by
  unfold rnd4
  have h1 : a * 10000 ≤ b * 10000 :=
    mul_le_mul_of_nonneg_right h (by norm_num)
  have h2 := halfEven_mono _ _ h1
  have h3 : ((halfEven (a * 10000) : Int) : Rat) ≤ ((halfEven (b * 10000) : Int) : Rat) := by
    exact_mod_cast h2
  rw [div_eq_mul_inv, div_eq_mul_inv]
  exact mul_le_mul_of_nonneg_right h3 (by norm_num)

theorem retrieve_keyword_nil_of_zero (q : List Nat) (rows : List DatasetRow) (k : Nat)
    (h0 : ∀ d ∈ rows, ¬ 0 < kwScore q d) : retrieve_keyword q rows k = [] := by
  simp only [retrieve_keyword]
  have h1 : (rows.filterMap fun d =>
      if 0 < kwScore q d then
        some (⟨d.dataset_id, d.name, d.desc, kwScore q d⟩ : Candidate)
      else none) = [] := by
    rw [List.filterMap_eq_nil_iff]
    intro d hd
    simp [h0 d hd]
  rw [h1]
  simp

/-- C9: under the keyword strategy every returned candidate comes from a
registry row with a positive keyword score, reported rounded to 4 decimal
places, with the row's name as label and description as rationale; for a
non-empty word list the score is the long-word hit count over the word
count; at most `top_k` candidates come back, in non-increasing score order;
and an empty question or an empty registry yields the empty list. -/
theorem C9_retrieve_keyword :
    (∀ (q : List Nat) (d : DatasetRow), kwWords q ≠ [] →
      kwScore q d =
        (((kwWords q).countP fun w => decide (2 < w.length) && containsB w (kwText d)) :
          Rat) / ((kwWords q).length : Rat)) ∧
    (∀ (q : List Nat) (rows : List DatasetRow) (k : Nat) (c : Candidate),
      c ∈ retrieve_keyword q rows k →
      ∃ d ∈ rows, c.dataset_id = d.dataset_id ∧ c.label = d.name ∧ c.why = d.desc ∧
        c.score = rnd4 (kwScore q d) ∧ 0 < kwScore q d) ∧
    (∀ (q : List Nat) (rows : List DatasetRow) (k : Nat),
      (retrieve_keyword q rows k).length ≤ k) ∧
    (∀ (q : List Nat) (rows : List DatasetRow) (k : Nat),
      (retrieve_keyword q rows k).Pairwise fun a b => b.score ≤ a.score) ∧
    (∀ (rows : List DatasetRow) (k : Nat), retrieve_keyword [] rows k = []) ∧
    (∀ (q : List Nat) (k : Nat), retrieve_keyword q [] k = []) := by
  refine ⟨?_, ?_, ?_, ?_, ?_, ?_⟩
  · intro q d hne
    have hlen : 1 ≤ (kwWords q).length := by
      cases hw : kwWords q with
      | nil => exact absurd hw hne
      | cons a t => simp
    simp only [kwScore]
    rw [Nat.max_eq_left hlen]
  · intro q rows k c hc
    simp only [retrieve_keyword] at hc
    obtain ⟨c2, hc2, rfl⟩ := List.mem_map.mp hc
    have hc3 := List.mem_of_mem_take hc2
    rw [List.mem_mergeSort] at hc3
    obtain ⟨d, hd, heq⟩ := List.mem_filterMap.mp hc3
    by_cases hs : 0 < kwScore q d
    · rw [if_pos hs] at heq
      obtain rfl := Option.some.inj heq
      exact ⟨d, hd, rfl, rfl, rfl, rfl, hs⟩
    · rw [if_neg hs] at heq
      cases heq
  · intro q rows k
    simp only [retrieve_keyword, List.length_map]
    exact List.length_take_le k _
  · intro q rows k
    simp only [retrieve_keyword]
    have htrans : ∀ a b c : Candidate,
        decide (b.score ≤ a.score) = true → decide (c.score ≤ b.score) = true →
        decide (c.score ≤ a.score) = true := by
      intro a b c h1 h2
      rw [decide_eq_true_iff] at h1 h2 ⊢
      exact le_trans h2 h1
    have htotal : ∀ a b : Candidate,
        (decide (b.score ≤ a.score) || decide (a.score ≤ b.score)) = true := by
      intro a b
      rcases le_total b.score a.score with h | h <;> simp [h]
    have hsorted := @List.sorted_mergeSort Candidate
      (fun a b : Candidate => decide (b.score ≤ a.score)) htrans htotal
      (rows.filterMap fun d =>
        if 0 < kwScore q d then
          some (⟨d.dataset_id, d.name, d.desc, kwScore q d⟩ : Candidate)
        else none)
    have hsorted2 := (hsorted.sublist (List.take_sublist k _)).imp
      (fun h => decide_eq_true_iff.mp h)
    rw [List.pairwise_map]
    exact hsorted2.imp fun h => rnd4_mono _ _ h
  · intro rows k
    apply retrieve_keyword_nil_of_zero
    intro d _
    simp [kwScore, kwWords, lower, splitWS, splitWSAux]
  · intro q k
    simp [retrieve_keyword]

end NLQ
